import Mathlib

/-!
Verification of the interactive list session of the `tada` todo manager.

The embedding follows `internal/tui.go` (the Bubble Tea model `modelTUI` and its
`Update` function, plus `runInteractiveList`) and `internal/jsonstore.go` (`Load`).
Machine state is represented with Lean lists and strings; the bubbles `list.Model`
is represented by its item slice and cursor index (`list.Items()` / `list.Index()`),
and `tea.Quit` by a `quitting` flag on the model. Collaborator behaviour that lives
outside this repository (bubbles `list`/`textinput`) is modelled from the spec and
marked as such on the corresponding definitions.
-/

namespace Tada

/-- Domain model for a todo entry, from `internal/item.go` (`Item`): a title and a
done flag. The TUI adapter `listItem` carries the same two fields (`Text`, `Done`). -/
structure Item where
  title : String
  done : Bool
deriving Repr, DecidableEq

/-- Input events as seen by `modelTUI.Update`: a key press carrying the string
returned by `tea.KeyMsg.String()` (such as "enter", "esc", "q", " ", "d"), or any
other message (window resize and the like). -/
inductive Msg where
  | key (s : String)
  | other
deriving Repr, DecidableEq

/-- State of the interactive session, from the `modelTUI` struct in `internal/tui.go`.
The bubbles list model is represented by its item slice (`list.Items()`) and cursor
(`list.Index()`); `tiValue` is the text-input value (`ti.Value()`); `quitting` records
that `tea.Quit` was returned. Indices originate from the cursor and are therefore
natural numbers. -/
structure ModelTUI where
  items : List Item
  cursor : Nat
  changed : Bool
  adding : Bool
  tiValue : String
  addErr : String
  editing : Bool
  editIndex : Nat
  editErr : String
  canUndo : Bool
  undoIndex : Nat
  undoItem : Option Item
  quitting : Bool
deriving Repr, DecidableEq

/-- Embedding of Go `strings.TrimSpace`: remove leading and trailing whitespace
characters from a string. -/
def trimSpace (s : String) : String :=
  ⟨((s.toList.dropWhile Char.isWhitespace).reverse.dropWhile Char.isWhitespace).reverse⟩

/-- Modelled from the spec: the textinput collaborator (bubbles/textinput) is not part
of the repository source. Per spec 4.2, `onKey` appends or deletes characters per
standard line-editing semantics: a single-character key appends it, backspace removes
the last character, and any other key leaves the text unchanged. -/
def tiOnKey (buf : String) (k : String) : String :=
  if k = "backspace" then buf.dropRight 1
  else if k.length = 1 then buf ++ k
  else buf

/-- Modelled from the spec: insertion position is clamped to the sequence length
(spec 4.1 `insertAt` inserts at a position of the current full sequence; the list
collaborator appends when the index is at or past the end). -/
def insertClamped (l : List Item) (idx : Nat) (it : Item) : List Item :=
  l.insertIdx (min idx l.length) it

/-- Branch of `modelTUI.Update` for the toggle key " ": if the cursor is in range,
flip `Done` on the item under the cursor via `SetItem` and set `changed`. -/
def toggleAtCursor (m : ModelTUI) : ModelTUI :=
  if h : m.cursor < m.items.length then
    let li := m.items.get ⟨m.cursor, h⟩
    { m with items := m.items.set m.cursor { li with done := !li.done }, changed := true }
  else m

/-- Branch of `modelTUI.Update` for the delete key "d": if the cursor is in range,
record the item and its index in the undo slot, remove it (`RemoveItem`) and set
`changed`. The post-removal cursor is modelled from the spec (4.1 `removeAt`): it is
clamped to stay valid, `min(cursor, new length - 1)` with floor 0. -/
def deleteAtCursor (m : ModelTUI) : ModelTUI :=
  if h : m.cursor < m.items.length then
    let li := m.items.get ⟨m.cursor, h⟩
    let rest := m.items.eraseIdx m.cursor
    { m with undoItem := some li, undoIndex := m.cursor, canUndo := true,
             items := rest,
             cursor := if rest.length = 0 then 0 else min m.cursor (rest.length - 1),
             changed := true }
  else m

/-- Branch of `modelTUI.Update` for the edit key "e": if the cursor is in range, enter
editing mode, remember the target index and seed the text input with the item title. -/
def beginEdit (m : ModelTUI) : ModelTUI :=
  if h : m.cursor < m.items.length then
    { m with editing := true, editIndex := m.cursor,
             tiValue := (m.items.get ⟨m.cursor, h⟩).title }
  else m

/-- Branch of `modelTUI.Update` for the undo key "u": if the undo slot is active,
clamp the recorded index to the current list length, insert the recorded item there,
set `changed` and deactivate the slot. An inactive slot is a silent no-op. -/
def doUndo (m : ModelTUI) : ModelTUI :=
  match m.undoItem with
  | some it =>
    if m.canUndo then
      let idx := if m.undoIndex > m.items.length then m.items.length else m.undoIndex
      { m with items := m.items.insertIdx idx it, changed := true,
               canUndo := false, undoItem := none }
    else m
  | none => m

/-- Modelled from the spec: cursor movement performed by the list collaborator
(bubbles/list) on a delegated message — one step up or down within the bounds of the
sequence, no wraparound (spec 4.1 `move`); any other delegated message leaves the
cursor where it is. -/
def listCursor (m : ModelTUI) (msg : Msg) : Nat :=
  match msg with
  | .key s =>
    if s = "up" ∨ s = "k" then m.cursor - 1
    else if s = "down" ∨ s = "j" then
      if m.cursor + 1 < m.items.length then m.cursor + 1 else m.cursor
    else m.cursor
  | .other => m.cursor

/-- Modelled from the spec: messages not handled by the session switch are delegated
to the list collaborator (bubbles/list), which per spec 4.1 only moves its cursor and
never modifies the item sequence or any session flag. -/
def listUpdate (m : ModelTUI) (msg : Msg) : ModelTUI :=
  { m with cursor := listCursor m msg }

/-- Add-mode section of `modelTUI.Update` (the `if m.adding` block): "enter" trims the
input; an empty result sets `addErr` and stays in add mode; otherwise the new item is
inserted at `Index()+1`, `changed` is set and add mode ends. "esc" leaves add mode and
clears the input. Every other message goes to the text input. -/
def updateAdding (m : ModelTUI) (msg : Msg) : ModelTUI :=
  match msg with
  | .key s =>
    if s = "enter" then
      let title := trimSpace m.tiValue
      if title = "" then { m with addErr := "Title cannot be empty" }
      else
        { m with items := insertClamped m.items (m.cursor + 1) { title := title, done := false },
                 changed := true, tiValue := "", adding := false }
    else if s = "esc" then { m with adding := false, tiValue := "" }
    else { m with tiValue := tiOnKey m.tiValue s }
  | .other => m

/-- Edit-mode section of `modelTUI.Update` (the `if m.editing` block): "enter" trims
the input; an empty result sets `editErr` and stays in edit mode; otherwise, when the
remembered index is still in range, the item there gets the new title (keeping its
`Done` flag) and `changed` is set; in either case the input is cleared and edit mode
ends. "esc" leaves edit mode and clears the input. Every other message goes to the
text input. -/
def updateEditing (m : ModelTUI) (msg : Msg) : ModelTUI :=
  match msg with
  | .key s =>
    if s = "enter" then
      let title := trimSpace m.tiValue
      if title = "" then { m with editErr := "Title cannot be empty" }
      else
        let m1 :=
          if h : m.editIndex < m.items.length then
            let li := m.items.get ⟨m.editIndex, h⟩
            { m with items := m.items.set m.editIndex { li with title := title },
                     changed := true }
          else m
        { m1 with tiValue := "", editing := false }
    else if s = "esc" then { m with editing := false, tiValue := "" }
    else { m with tiValue := tiOnKey m.tiValue s }
  | .other => m

/-- Browsing section of `modelTUI.Update` (the final switch): "q"/"esc" quit; " "
toggles; "d" deletes with undo recording; "a" enters add mode with a cleared input;
"e" enters edit mode; "u" undoes; everything else is delegated to the list model. -/
def updateBrowsing (m : ModelTUI) (msg : Msg) : ModelTUI :=
  match msg with
  | .key s =>
    if s = "q" ∨ s = "esc" then { m with quitting := true }
    else if s = " " then toggleAtCursor m
    else if s = "d" then deleteAtCursor m
    else if s = "a" then { m with adding := true, tiValue := "" }
    else if s = "e" then beginEdit m
    else if s = "u" then doUndo m
    else listUpdate m (Msg.key s)
  | .other => listUpdate m Msg.other

/-- The full `modelTUI.Update`: the add-mode block runs first, then the edit-mode
block, then the browsing switch. -/
def update (m : ModelTUI) (msg : Msg) : ModelTUI :=
  if m.adding then updateAdding m msg
  else if m.editing then updateEditing m msg
  else updateBrowsing m msg

/-- Session state built by `runInteractiveList` before `p.Run()`: the loaded items,
cursor at 0, no pending change, no active text entry, empty undo slot. -/
def initModel (items : List Item) : ModelTUI :=
  { items := items, cursor := 0, changed := false, adding := false, tiValue := "",
    addErr := "", editing := false, editIndex := 0, editErr := "",
    canUndo := false, undoIndex := 0, undoItem := none, quitting := false }

/-- Folding a stream of input events through `update`, one at a time. -/
def applyMsgs (msgs : List Msg) (m : ModelTUI) : ModelTUI :=
  msgs.foldl update m

/-- End-of-session persistence guard from `runInteractiveList`: `Save` runs exactly
when the final model's `changed` flag is set. -/
def sessionSaves (m : ModelTUI) : Bool :=
  m.changed

/-- Keys consumed by the browsing switch of `modelTUI.Update`; every other key press
falls through to the list model. -/
def shortcutKeys : List String :=
  ["q", "esc", " ", "d", "a", "e", "u"]

/-- Session state after feeding the given key messages to a freshly started session
whose cursor stands at position `c`. -/
def afterMsgs (msgs : List Msg) (items : List Item) (c : Nat) : ModelTUI :=
  applyMsgs msgs { initModel items with cursor := c }

/-- Concrete session state: Adding mode over the empty list with a whitespace-only
buffer (spec example scenario 3). -/
def demoAdding : ModelTUI :=
  { initModel [] with adding := true, tiValue := "  " }

/-- Concrete session state: Editing mode over a one-item list with a whitespace-only
buffer. -/
def demoEditing : ModelTUI :=
  { initModel [⟨"A", false⟩] with editing := true, tiValue := " " }

/-- Concrete session state: Adding mode over a one-item list with typed text "x". -/
def demoAddingText : ModelTUI :=
  { initModel [⟨"A", false⟩] with adding := true, tiValue := "x" }

/-- Concrete session state: Adding mode with typed text and a stale inline error. -/
def demoAddingStale : ModelTUI :=
  { initModel [] with adding := true, tiValue := "abc", addErr := "Title cannot be empty" }

/-- Concrete session state: Editing mode with typed text and a stale inline error. -/
def demoEditingStale : ModelTUI :=
  { initModel [⟨"A", false⟩] with
    editing := true, tiValue := "zz", editErr := "Title cannot be empty" }

/-- Concrete session state: Editing item 1 of a two-item list with new title "B2"
(spec example scenario 4). -/
def demoEditingB2 : ModelTUI :=
  { initModel [⟨"A", false⟩, ⟨"B", false⟩] with
    editing := true, editIndex := 1, tiValue := "B2" }

/-- Concrete session state: Browsing over the empty list with an armed undo slot. -/
def demoUndoReady : ModelTUI :=
  { initModel [] with canUndo := true, undoItem := some ⟨"A", false⟩ }

/-- State of the backing file seen by `Load` in `internal/jsonstore.go`: absent,
present but unreadable, or readable with some contents. -/
inductive FileState where
  | missing
  | unreadable
  | content (s : String)
deriving Repr, DecidableEq

/-- Shallow embedding of `Load` from `internal/jsonstore.go`. Reading a missing file
yields the empty item list (`os.ErrNotExist` branch); any other read failure is an
error; otherwise the contents are unmarshalled, with `json.Unmarshal` represented by
an abstract `parse` function that returns `none` on malformed input. -/
def Load (parse : String → Option (List Item)) : FileState → Except String (List Item)
  | .missing => .ok []
  | .unreadable => .error "read file"
  | .content s =>
    match parse s with
    | none => .error "json unmarshal"
    | some items => .ok items

/-- Case-insensitive check that the pattern character list occurs inside the other
list, used to model the list collaborator's substring filter. -/
def containsSub (s pat : List Char) : Bool :=
  match s with
  | [] => pat.isEmpty
  | _ :: rest => pat.isPrefixOf s || containsSub rest pat

/-- Modelled from the spec: the filter of the Selection List (spec 4.1 `setFilter`)
keeps the items whose title contains the filter text, case-insensitively. -/
def matchesFilter (filterText : String) (it : Item) : Bool :=
  containsSub it.title.toLower.toList filterText.toLower.toList

/-- Modelled from the spec: Selection List state (spec section 3) — the underlying
item sequence, the cursor into the visible (filtered) subsequence, and the filter
text. -/
structure SelState where
  items : List Item
  cursor : Nat
  filterText : String
deriving Repr, DecidableEq

/-- Visible subsequence of a Selection List state: the items matching the filter, in
original relative order. -/
def visible (s : SelState) : List Item :=
  s.items.filter (matchesFilter s.filterText)

/-- Removal of the k-th visible item from the underlying sequence: walk the sequence,
counting only items that match the filter, and drop the k-th match. -/
def eraseVisible (l : List Item) (filterText : String) (k : Nat) : List Item :=
  match l with
  | [] => []
  | it :: rest =>
    if matchesFilter filterText it then
      match k with
      | 0 => rest
      | j + 1 => it :: eraseVisible rest filterText j
    else it :: eraseVisible rest filterText k

/-- Actions of the Selection List exercised by the bounds-safety property: cursor
moves, deletion at the cursor, and filter changes. -/
inductive NavAction where
  | moveUp
  | moveDown
  | delete
  | setFilter (s : String)
deriving Repr, DecidableEq

/-- Modelled from the spec: one Selection List step (spec 4.1). `move` shifts the
cursor by one within the bounds of the visible subsequence with no wraparound;
`delete` removes the item under the cursor when the visible set is nonempty and
clamps the cursor to `min(cursor, new length - 1)` with floor 0; `setFilter`
installs the new filter text and resets the cursor into bounds. -/
def applyNav (s : SelState) : NavAction → SelState
  | .moveUp => { s with cursor := s.cursor - 1 }
  | .moveDown =>
      if s.cursor + 1 < (visible s).length then { s with cursor := s.cursor + 1 } else s
  | .delete =>
      if (visible s).length = 0 then s
      else
        let rest := eraseVisible s.items s.filterText s.cursor
        let visLen := (rest.filter (matchesFilter s.filterText)).length
        { s with items := rest,
                 cursor := if visLen = 0 then 0 else min s.cursor (visLen - 1) }
  | .setFilter f => { s with filterText := f, cursor := 0 }

/-- Running a sequence of Selection List actions from a state. -/
def runNav (acts : List NavAction) (s : SelState) : SelState :=
  acts.foldl applyNav s

/-- Initial Selection List state: loaded items, cursor 0, empty filter. -/
def initSel (items : List Item) : SelState :=
  { items := items, cursor := 0, filterText := "" }

/-- Cursor bounds invariant of the Selection List: `0 ≤ cursor` (cursor is a natural
number) and `cursor < max 1 visibleCount`. -/
def cursorInv (s : SelState) : Prop :=
  s.cursor < max 1 (visible s).length

/-- Re-inserting the element removed at position `i` back at position `i` restores the
original list. -/
theorem insertIdx_eraseIdx_self :
    ∀ (l : List Item) (i : Nat) (h : i < l.length),
      (l.eraseIdx i).insertIdx i (l.get ⟨i, h⟩) = l := by
  intro l
  induction l with
  | nil => intro i h; simp at h
  | cons a t ih =>
    intro i h
    cases i with
    | zero => simp [List.eraseIdx, List.insertIdx]
    | succ j =>
      have hj : j < t.length := by simpa using h
      simp [List.eraseIdx, List.insertIdx_succ_cons]
      exact ih j hj

/-- Pressing the undo key with an empty undo slot leaves the browsing-mode model
unchanged. -/
theorem undo_noop (m : ModelTUI) (h1 : m.adding = false) (h2 : m.editing = false)
    (h3 : m.undoItem = none) : update m (Msg.key "u") = m := by
  simp [update, h1, h2, updateBrowsing, doUndo, h3]

/-- Any number of undo presses with an empty undo slot leaves the browsing-mode model
unchanged. -/
theorem applyMsgs_replicate_undo_noop (m : ModelTUI) (n : Nat) (h1 : m.adding = false)
    (h2 : m.editing = false) (h3 : m.undoItem = none) :
    applyMsgs (List.replicate n (Msg.key "u")) m = m := by
  induction n with
  | zero => rfl
  | succ k ih =>
    rw [List.replicate_succ]
    show applyMsgs (List.replicate k (Msg.key "u")) (update m (Msg.key "u")) = m
    rw [undo_noop m h1 h2 h3]
    exact ih

/-- C1: from browsing mode with a valid cursor position `i`, pressing the delete key
(which records the deleted item and its index in the undo slot and removes the item)
followed immediately by the undo key restores an item sequence equal to the pre-delete
sequence — same items, same order — including when `i` is the last position. -/
theorem delete_then_undo_round_trip (items : List Item) (i : Nat) (h : i < items.length) :
    (applyMsgs [Msg.key "d", Msg.key "u"] { initModel items with cursor := i }).items
      = items := by
  have hlen : (items.eraseIdx i).length = items.length - 1 := by
    simp [List.length_eraseIdx, h]
  have hle : ¬ i > (items.eraseIdx i).length := by
    rw [hlen]; omega
  simp [applyMsgs, update, initModel, updateBrowsing, deleteAtCursor, doUndo, h, hle]
  exact insertIdx_eraseIdx_self items i h

/-- Witness for C1 at the concrete one-item list of the spec's example scenario 2. -/
theorem delete_then_undo_round_trip_witness :
    (applyMsgs [Msg.key "d", Msg.key "u"]
        { initModel [⟨"A", false⟩] with cursor := 0 }).items = [⟨"A", false⟩] :=
  delete_then_undo_round_trip [⟨"A", false⟩] 0 (by decide)

/-- C4: the undo slot holds at most one deletion. After two consecutive deletions the
slot holds the second deleted item and its index (overwriting the first recording);
pressing undo restores exactly the sequence that existed after the first deletion (so
only the most recent deletion is undone, at its clamped recorded index), deactivates
the slot, and any number of further undo presses leaves the state unchanged — the
first deleted item cannot be restored. -/
theorem single_level_undo (items : List Item) (c n : Nat)
    (h2 : 2 ≤ items.length) (hc : c < items.length) :
    (afterMsgs [Msg.key "d", Msg.key "d"] items c).undoItem
        = (afterMsgs [Msg.key "d"] items c).items[(afterMsgs [Msg.key "d"] items c).cursor]?
    ∧ (afterMsgs [Msg.key "d", Msg.key "d"] items c).undoIndex
        = (afterMsgs [Msg.key "d"] items c).cursor
    ∧ (afterMsgs [Msg.key "d", Msg.key "d", Msg.key "u"] items c).items
        = (afterMsgs [Msg.key "d"] items c).items
    ∧ (afterMsgs [Msg.key "d", Msg.key "d", Msg.key "u"] items c).canUndo = false
    ∧ (afterMsgs [Msg.key "d", Msg.key "d", Msg.key "u"] items c).undoItem = none
    ∧ applyMsgs (List.replicate n (Msg.key "u"))
          (afterMsgs [Msg.key "d", Msg.key "d", Msg.key "u"] items c)
        = afterMsgs [Msg.key "d", Msg.key "d", Msg.key "u"] items c := by
  have hl1 : (items.eraseIdx c).length = items.length - 1 := by
    simp [List.length_eraseIdx, hc]
  have hne : ¬ (items.eraseIdx c).length = 0 := by omega
  have hc1 : min c ((items.eraseIdx c).length - 1) < (items.eraseIdx c).length := by omega
  have hl2 : ((items.eraseIdx c).eraseIdx (min c ((items.eraseIdx c).length - 1))).length
      = (items.eraseIdx c).length - 1 := by
    rw [List.length_eraseIdx, if_pos hc1]
  have hle2 : ¬ (min c ((items.eraseIdx c).length - 1))
      > ((items.eraseIdx c).eraseIdx (min c ((items.eraseIdx c).length - 1))).length := by
    omega
  have hrt := insertIdx_eraseIdx_self (items.eraseIdx c)
    (min c ((items.eraseIdx c).length - 1)) hc1
  refine ⟨?_, ?_, ?_, ?_, ?_, ?_⟩
  · simp [afterMsgs, applyMsgs, update, initModel, updateBrowsing, deleteAtCursor, doUndo,
      hc, hne, hc1, hle2, List.getElem?_eq_getElem]
  · simp [afterMsgs, applyMsgs, update, initModel, updateBrowsing, deleteAtCursor, doUndo,
      hc, hne, hc1, hle2]
  · simp [afterMsgs, applyMsgs, update, initModel, updateBrowsing, deleteAtCursor, doUndo,
      hc, hne, hc1, hle2]
    exact hrt
  · simp [afterMsgs, applyMsgs, update, initModel, updateBrowsing, deleteAtCursor, doUndo,
      hc, hne, hc1, hle2]
  · simp [afterMsgs, applyMsgs, update, initModel, updateBrowsing, deleteAtCursor, doUndo,
      hc, hne, hc1, hle2]
  · exact applyMsgs_replicate_undo_noop _ n
      (by simp [afterMsgs, applyMsgs, update, initModel, updateBrowsing, deleteAtCursor,
        doUndo, hc, hne, hc1, hle2])
      (by simp [afterMsgs, applyMsgs, update, initModel, updateBrowsing, deleteAtCursor,
        doUndo, hc, hne, hc1, hle2])
      (by simp [afterMsgs, applyMsgs, update, initModel, updateBrowsing, deleteAtCursor,
        doUndo, hc, hne, hc1, hle2])

/-- Witness for C4 at the spec's example scenario 5 list, cursor 0, two further undo
presses. -/
theorem single_level_undo_witness :
    (afterMsgs [Msg.key "d", Msg.key "d"] [⟨"A", false⟩, ⟨"B", false⟩, ⟨"C", false⟩] 0).undoItem
        = (afterMsgs [Msg.key "d"] [⟨"A", false⟩, ⟨"B", false⟩, ⟨"C", false⟩] 0).items[
            (afterMsgs [Msg.key "d"] [⟨"A", false⟩, ⟨"B", false⟩, ⟨"C", false⟩] 0).cursor]?
    ∧ (afterMsgs [Msg.key "d", Msg.key "d"] [⟨"A", false⟩, ⟨"B", false⟩, ⟨"C", false⟩] 0).undoIndex
        = (afterMsgs [Msg.key "d"] [⟨"A", false⟩, ⟨"B", false⟩, ⟨"C", false⟩] 0).cursor
    ∧ (afterMsgs [Msg.key "d", Msg.key "d", Msg.key "u"] [⟨"A", false⟩, ⟨"B", false⟩, ⟨"C", false⟩] 0).items
        = (afterMsgs [Msg.key "d"] [⟨"A", false⟩, ⟨"B", false⟩, ⟨"C", false⟩] 0).items
    ∧ (afterMsgs [Msg.key "d", Msg.key "d", Msg.key "u"] [⟨"A", false⟩, ⟨"B", false⟩, ⟨"C", false⟩] 0).canUndo = false
    ∧ (afterMsgs [Msg.key "d", Msg.key "d", Msg.key "u"] [⟨"A", false⟩, ⟨"B", false⟩, ⟨"C", false⟩] 0).undoItem = none
    ∧ applyMsgs (List.replicate 2 (Msg.key "u"))
          (afterMsgs [Msg.key "d", Msg.key "d", Msg.key "u"] [⟨"A", false⟩, ⟨"B", false⟩, ⟨"C", false⟩] 0)
        = afterMsgs [Msg.key "d", Msg.key "d", Msg.key "u"] [⟨"A", false⟩, ⟨"B", false⟩, ⟨"C", false⟩] 0 :=
  single_level_undo [⟨"A", false⟩, ⟨"B", false⟩, ⟨"C", false⟩] 0 2 (by decide) (by decide)

/-- C2: in Adding or Editing mode, committing with a buffer that trims to the empty
string sets the inline error "Title cannot be empty", leaves the item sequence and
the dirty flag unchanged, and keeps the session in the same mode. -/
theorem empty_commit_rejected (m mE : ModelTUI)
    (hA : m.adding = true) (he : trimSpace m.tiValue = "")
    (hE1 : mE.adding = false) (hE2 : mE.editing = true)
    (heE : trimSpace mE.tiValue = "") :
    ((update m (Msg.key "enter")).items = m.items
      ∧ (update m (Msg.key "enter")).changed = m.changed
      ∧ (update m (Msg.key "enter")).adding = true
      ∧ (update m (Msg.key "enter")).editing = m.editing
      ∧ (update m (Msg.key "enter")).addErr = "Title cannot be empty")
    ∧ ((update mE (Msg.key "enter")).items = mE.items
      ∧ (update mE (Msg.key "enter")).changed = mE.changed
      ∧ (update mE (Msg.key "enter")).editing = true
      ∧ (update mE (Msg.key "enter")).adding = false
      ∧ (update mE (Msg.key "enter")).editErr = "Title cannot be empty") := by
  constructor
  · simp [update, hA, updateAdding, he]
  · simp [update, hE1, hE2, updateEditing, heE]

/-- Witness for C2: Adding mode with a whitespace-only buffer over the empty list
(spec example scenario 3) and Editing mode with a whitespace-only buffer over a
one-item list. -/
theorem empty_commit_rejected_witness :
    ((update demoAdding (Msg.key "enter")).items = demoAdding.items
      ∧ (update demoAdding (Msg.key "enter")).changed = demoAdding.changed
      ∧ (update demoAdding (Msg.key "enter")).adding = true
      ∧ (update demoAdding (Msg.key "enter")).editing = demoAdding.editing
      ∧ (update demoAdding (Msg.key "enter")).addErr = "Title cannot be empty")
    ∧ ((update demoEditing (Msg.key "enter")).items = demoEditing.items
      ∧ (update demoEditing (Msg.key "enter")).changed = demoEditing.changed
      ∧ (update demoEditing (Msg.key "enter")).editing = true
      ∧ (update demoEditing (Msg.key "enter")).adding = false
      ∧ (update demoEditing (Msg.key "enter")).editErr = "Title cannot be empty") :=
  empty_commit_rejected demoAdding demoEditing
    (by decide) (by decide) (by decide) (by decide) (by decide)

/-- C3: while Adding or Editing, a key whose character is a Browsing-mode shortcut
(space, d, a, e, u, q) is appended to the text-entry buffer and performs no Browsing
action: the item sequence, dirty flag, modes, undo slot and quit status are all
untouched. -/
theorem modal_isolation (m : ModelTUI) (k : String)
    (hmode : m.adding = true ∨ (m.adding = false ∧ m.editing = true))
    (hk : k ∈ [" ", "d", "a", "e", "u", "q"]) :
    (update m (Msg.key k)).items = m.items
    ∧ (update m (Msg.key k)).changed = m.changed
    ∧ (update m (Msg.key k)).adding = m.adding
    ∧ (update m (Msg.key k)).editing = m.editing
    ∧ (update m (Msg.key k)).canUndo = m.canUndo
    ∧ (update m (Msg.key k)).undoItem = m.undoItem
    ∧ (update m (Msg.key k)).quitting = m.quitting
    ∧ (update m (Msg.key k)).tiValue = m.tiValue ++ k := by
  rcases hmode with hA | ⟨hA, hE⟩
  · fin_cases hk <;> simp [update, hA, updateAdding, tiOnKey] <;>
      exact fun hc => absurd rfl hc
  · fin_cases hk <;> simp [update, hA, hE, updateEditing, tiOnKey] <;>
      exact fun hc => absurd rfl hc

/-- Witness for C3: the delete shortcut pressed while Adding mode is active. -/
theorem modal_isolation_witness :
    (update demoAddingText (Msg.key "d")).items = demoAddingText.items
    ∧ (update demoAddingText (Msg.key "d")).changed = demoAddingText.changed
    ∧ (update demoAddingText (Msg.key "d")).adding = demoAddingText.adding
    ∧ (update demoAddingText (Msg.key "d")).editing = demoAddingText.editing
    ∧ (update demoAddingText (Msg.key "d")).canUndo = demoAddingText.canUndo
    ∧ (update demoAddingText (Msg.key "d")).undoItem = demoAddingText.undoItem
    ∧ (update demoAddingText (Msg.key "d")).quitting = demoAddingText.quitting
    ∧ (update demoAddingText (Msg.key "d")).tiValue = demoAddingText.tiValue ++ "d" :=
  modal_isolation demoAddingText "d" (Or.inl (by decide)) (by decide)

/-- C6 counterexample: begin adding over the empty list and fail a commit, so the
inline error is set; then deliver the ordinary keystroke "x" to the text-entry
buffer. The error field still holds "Title cannot be empty" — it is not cleared on
the keystroke, contradicting the claim that it is empty again. -/
theorem keystroke_keeps_error_counterexample :
    (applyMsgs [Msg.key "a", Msg.key "enter"] (initModel [])).addErr = "Title cannot be empty"
    ∧ (applyMsgs [Msg.key "a", Msg.key "enter"] (initModel [])).adding = true
    ∧ (applyMsgs [Msg.key "a", Msg.key "enter", Msg.key "x"] (initModel [])).tiValue = "x"
    ∧ (applyMsgs [Msg.key "a", Msg.key "enter", Msg.key "x"] (initModel [])).addErr
        = "Title cannot be empty"
    ∧ ¬ (applyMsgs [Msg.key "a", Msg.key "enter", Msg.key "x"] (initModel [])).addErr = "" := by
  decide

/-- C6 amended: in Adding or Editing mode the inline validation error is set by a
failed commit (empty trimmed title) and is NOT cleared by keystrokes delivered to the
text-entry buffer: every non-commit, non-escape key leaves the error field unchanged,
so after such a keystroke following a failed commit the error still holds the
message. -/
theorem error_persists_on_keystroke (m mE : ModelTUI) (k : String)
    (hA : m.adding = true) (he : trimSpace m.tiValue = "")
    (hE1 : mE.adding = false) (hE2 : mE.editing = true) (heE : trimSpace mE.tiValue = "")
    (hk1 : ¬ k = "enter") (hk2 : ¬ k = "esc") :
    ((update m (Msg.key k)).addErr = m.addErr
      ∧ (update m (Msg.key "enter")).addErr = "Title cannot be empty"
      ∧ (update (update m (Msg.key "enter")) (Msg.key k)).addErr = "Title cannot be empty")
    ∧ ((update mE (Msg.key k)).editErr = mE.editErr
      ∧ (update mE (Msg.key "enter")).editErr = "Title cannot be empty"
      ∧ (update (update mE (Msg.key "enter")) (Msg.key k)).editErr = "Title cannot be empty") := by
  constructor
  · refine ⟨?_, ?_, ?_⟩
    · simp [update, hA, updateAdding, hk1, hk2]
    · simp [update, hA, updateAdding, he]
    · simp [update, hA, updateAdding, he, hk1, hk2]
  · refine ⟨?_, ?_, ?_⟩
    · simp [update, hE1, hE2, updateEditing, hk1, hk2]
    · simp [update, hE1, hE2, updateEditing, heE]
    · simp [update, hE1, hE2, updateEditing, heE, hk1, hk2]

/-- Witness for the amended C6: Adding mode over the empty list and Editing mode over
a one-item list, both with whitespace-only buffers, keystroke "x". -/
theorem error_persists_on_keystroke_witness :
    ((update demoAdding (Msg.key "x")).addErr = demoAdding.addErr
      ∧ (update demoAdding (Msg.key "enter")).addErr = "Title cannot be empty"
      ∧ (update (update demoAdding (Msg.key "enter")) (Msg.key "x")).addErr
        = "Title cannot be empty")
    ∧ ((update demoEditing (Msg.key "x")).editErr = demoEditing.editErr
      ∧ (update demoEditing (Msg.key "enter")).editErr = "Title cannot be empty"
      ∧ (update (update demoEditing (Msg.key "enter")) (Msg.key "x")).editErr
        = "Title cannot be empty") :=
  error_persists_on_keystroke demoAdding demoEditing "x"
    (by decide) (by decide) (by decide) (by decide) (by decide) (by decide) (by decide)

/-- C7 counterexample: begin adding over the empty list, fail a commit so the inline
error is set, then press escape. The mode is cancelled and the buffer cleared, yet the
error field still holds "Title cannot be empty" — escape does not clear it,
contradicting the claim. -/
theorem escape_keeps_error_counterexample :
    (applyMsgs [Msg.key "a", Msg.key "enter", Msg.key "esc"] (initModel [])).adding = false
    ∧ (applyMsgs [Msg.key "a", Msg.key "enter", Msg.key "esc"] (initModel [])).tiValue = ""
    ∧ (applyMsgs [Msg.key "a", Msg.key "enter", Msg.key "esc"] (initModel [])).addErr
        = "Title cannot be empty"
    ∧ ¬ (applyMsgs [Msg.key "a", Msg.key "enter", Msg.key "esc"] (initModel [])).addErr = "" := by
  decide

/-- C7 amended: escape in Adding or Editing mode cancels the text entry
unconditionally — it clears the buffer, deactivates the mode (returning to Browsing),
discards the typed input, and leaves the item sequence and the dirty flag unchanged —
but it does NOT clear the inline error fields, which keep their previous contents. -/
theorem escape_cancels (m mE : ModelTUI)
    (hA : m.adding = true) (hE1 : mE.adding = false) (hE2 : mE.editing = true) :
    ((update m (Msg.key "esc")).adding = false
      ∧ (update m (Msg.key "esc")).editing = m.editing
      ∧ (update m (Msg.key "esc")).tiValue = ""
      ∧ (update m (Msg.key "esc")).items = m.items
      ∧ (update m (Msg.key "esc")).changed = m.changed
      ∧ (update m (Msg.key "esc")).quitting = m.quitting
      ∧ (update m (Msg.key "esc")).addErr = m.addErr
      ∧ (update m (Msg.key "esc")).editErr = m.editErr)
    ∧ ((update mE (Msg.key "esc")).editing = false
      ∧ (update mE (Msg.key "esc")).adding = false
      ∧ (update mE (Msg.key "esc")).tiValue = ""
      ∧ (update mE (Msg.key "esc")).items = mE.items
      ∧ (update mE (Msg.key "esc")).changed = mE.changed
      ∧ (update mE (Msg.key "esc")).quitting = mE.quitting
      ∧ (update mE (Msg.key "esc")).addErr = mE.addErr
      ∧ (update mE (Msg.key "esc")).editErr = mE.editErr) := by
  constructor
  · simp [update, hA, updateAdding]
  · simp [update, hE1, hE2, updateEditing]

/-- Witness for the amended C7: Adding mode with typed text and a stale error over
the empty list, and Editing mode with typed text and a stale error over a one-item
list. -/
theorem escape_cancels_witness :
    ((update demoAddingStale (Msg.key "esc")).adding = false
      ∧ (update demoAddingStale (Msg.key "esc")).editing = demoAddingStale.editing
      ∧ (update demoAddingStale (Msg.key "esc")).tiValue = ""
      ∧ (update demoAddingStale (Msg.key "esc")).items = demoAddingStale.items
      ∧ (update demoAddingStale (Msg.key "esc")).changed = demoAddingStale.changed
      ∧ (update demoAddingStale (Msg.key "esc")).quitting = demoAddingStale.quitting
      ∧ (update demoAddingStale (Msg.key "esc")).addErr = demoAddingStale.addErr
      ∧ (update demoAddingStale (Msg.key "esc")).editErr = demoAddingStale.editErr)
    ∧ ((update demoEditingStale (Msg.key "esc")).editing = false
      ∧ (update demoEditingStale (Msg.key "esc")).adding = false
      ∧ (update demoEditingStale (Msg.key "esc")).tiValue = ""
      ∧ (update demoEditingStale (Msg.key "esc")).items = demoEditingStale.items
      ∧ (update demoEditingStale (Msg.key "esc")).changed = demoEditingStale.changed
      ∧ (update demoEditingStale (Msg.key "esc")).quitting = demoEditingStale.quitting
      ∧ (update demoEditingStale (Msg.key "esc")).addErr = demoEditingStale.addErr
      ∧ (update demoEditingStale (Msg.key "esc")).editErr = demoEditingStale.editErr) :=
  escape_cancels demoAddingStale demoEditingStale (by decide) (by decide) (by decide)

/-- C10: a successful edit commit is title-only. From Editing mode with an in-range
target index and a buffer trimming to a non-empty title, the commit replaces only the
Title of the item at the target index: the sequence becomes `set` of that one
position, the length is unchanged, the Done flag of the edited item is preserved,
edit mode ends and the dirty flag is set. -/
theorem edit_commit_title_only (m : ModelTUI)
    (hA : m.adding = false) (hE : m.editing = true)
    (hidx : m.editIndex < m.items.length) (ht : ¬ trimSpace m.tiValue = "") :
    (update m (Msg.key "enter")).items
        = m.items.set m.editIndex
            { title := trimSpace m.tiValue, done := (m.items.get ⟨m.editIndex, hidx⟩).done }
    ∧ (update m (Msg.key "enter")).items.length = m.items.length
    ∧ ((update m (Msg.key "enter")).items[m.editIndex]?).map Item.done
        = (m.items[m.editIndex]?).map Item.done
    ∧ ((update m (Msg.key "enter")).items[m.editIndex]?).map Item.title
        = some (trimSpace m.tiValue)
    ∧ (update m (Msg.key "enter")).editing = false
    ∧ (update m (Msg.key "enter")).changed = true := by
  refine ⟨?_, ?_, ?_, ?_, ?_, ?_⟩ <;>
    simp [update, hA, hE, updateEditing, ht, hidx, List.getElem?_set_eq_of_lt,
      List.getElem?_eq_getElem]

/-- Witness for C10: editing the item at position 1 of a two-item list with new title
"B2" (spec example scenario 4). -/
theorem edit_commit_title_only_witness :
    (update demoEditingB2 (Msg.key "enter")).items
        = demoEditingB2.items.set demoEditingB2.editIndex
            { title := trimSpace demoEditingB2.tiValue,
              done := (demoEditingB2.items.get ⟨demoEditingB2.editIndex, by decide⟩).done }
    ∧ (update demoEditingB2 (Msg.key "enter")).items.length = demoEditingB2.items.length
    ∧ ((update demoEditingB2 (Msg.key "enter")).items[demoEditingB2.editIndex]?).map Item.done
        = (demoEditingB2.items[demoEditingB2.editIndex]?).map Item.done
    ∧ ((update demoEditingB2 (Msg.key "enter")).items[demoEditingB2.editIndex]?).map Item.title
        = some (trimSpace demoEditingB2.tiValue)
    ∧ (update demoEditingB2 (Msg.key "enter")).editing = false
    ∧ (update demoEditingB2 (Msg.key "enter")).changed = true :=
  edit_commit_title_only demoEditingB2 (by decide) (by decide) (by decide) (by decide)

/-- In Browsing mode, a key outside the shortcut set falls through to the list model:
the step only moves the cursor. -/
theorem delegated_step (m : ModelTUI) (s : String)
    (h1 : m.adding = false) (h2 : m.editing = false) (hs : ¬ s ∈ shortcutKeys) :
    update m (Msg.key s) = { m with cursor := listCursor m (Msg.key s) } := by
  simp only [shortcutKeys, List.mem_cons, List.not_mem_nil, or_false, not_or] at hs
  obtain ⟨hq, hesc, hsp, hd, ha, he, hu⟩ := hs
  simp [update, h1, h2, updateBrowsing, listUpdate, hq, hesc, hsp, hd, ha, he, hu]

/-- A run of delegated (navigation/filter) messages from Browsing mode keeps the
modes inactive and leaves the item sequence, the dirty flag and the quit status
exactly as they were. -/
theorem delegated_run (msgs : List Msg) (m : ModelTUI)
    (h1 : m.adding = false) (h2 : m.editing = false)
    (hnav : ∀ t, Msg.key t ∈ msgs → ¬ t ∈ shortcutKeys) :
    (applyMsgs msgs m).adding = false ∧ (applyMsgs msgs m).editing = false
    ∧ (applyMsgs msgs m).changed = m.changed ∧ (applyMsgs msgs m).items = m.items
    ∧ (applyMsgs msgs m).quitting = m.quitting := by
  induction msgs generalizing m with
  | nil => exact ⟨h1, h2, rfl, rfl, rfl⟩
  | cons msg rest ih =>
    have hstep : update m msg = { m with cursor := listCursor m msg } := by
      cases msg with
      | key t => exact delegated_step m t h1 h2 (hnav t (by simp))
      | other => simp [update, h1, h2, updateBrowsing, listUpdate]
    have hrest : ∀ t, Msg.key t ∈ rest → ¬ t ∈ shortcutKeys := fun t ht =>
      hnav t (by simp [ht])
    have hfold : applyMsgs (msg :: rest) m
        = applyMsgs rest { m with cursor := listCursor m msg } := by
      simp only [applyMsgs, List.foldl_cons, hstep]
    rw [hfold]
    exact ih { m with cursor := listCursor m msg } h1 h2 hrest

/-- C5: the dirty flag starts false; it is set to true by the mutating actions
(toggle, delete, successful add commit, successful edit commit, successful undo);
delegated navigation/filter keys never change it; a session of only delegated keys
ended by the quit key finishes with the flag false, so the store's `Save` does not
run; and `Save` runs at session end exactly when the flag is true. -/
theorem dirty_flag_accuracy (items : List Item) (msgs : List Msg) (s : String)
    (mNav mTog mA mEd mU : ModelTUI) (u : Item)
    (hnav : ∀ t, Msg.key t ∈ msgs → ¬ t ∈ shortcutKeys)
    (hsn : ¬ s ∈ shortcutKeys)
    (hN1 : mNav.adding = false) (hN2 : mNav.editing = false)
    (hT1 : mTog.adding = false) (hT2 : mTog.editing = false)
    (hTc : mTog.cursor < mTog.items.length)
    (hA : mA.adding = true) (hAne : ¬ trimSpace mA.tiValue = "")
    (hE1 : mEd.adding = false) (hE2 : mEd.editing = true)
    (hEne : ¬ trimSpace mEd.tiValue = "") (hEi : mEd.editIndex < mEd.items.length)
    (hU1 : mU.adding = false) (hU2 : mU.editing = false)
    (hUc : mU.canUndo = true) (hUi : mU.undoItem = some u) :
    (initModel items).changed = false
    ∧ (applyMsgs (msgs ++ [Msg.key "q"]) (initModel items)).changed = false
    ∧ (applyMsgs (msgs ++ [Msg.key "q"]) (initModel items)).quitting = true
    ∧ sessionSaves (applyMsgs (msgs ++ [Msg.key "q"]) (initModel items)) = false
    ∧ (update mNav (Msg.key s)).changed = mNav.changed
    ∧ (update mTog (Msg.key " ")).changed = true
    ∧ (update mTog (Msg.key "d")).changed = true
    ∧ (update mA (Msg.key "enter")).changed = true
    ∧ (update mEd (Msg.key "enter")).changed = true
    ∧ (update mU (Msg.key "u")).changed = true
    ∧ (sessionSaves mNav = true ↔ mNav.changed = true) := by
  obtain ⟨ha, he, hch, hit, hqt⟩ := delegated_run msgs (initModel items) rfl rfl hnav
  have hfin : applyMsgs (msgs ++ [Msg.key "q"]) (initModel items)
      = update (applyMsgs msgs (initModel items)) (Msg.key "q") := by
    simp only [applyMsgs, List.foldl_append, List.foldl_cons, List.foldl_nil]
  have hq : update (applyMsgs msgs (initModel items)) (Msg.key "q")
      = { applyMsgs msgs (initModel items) with quitting := true } := by
    simp [update, ha, he, updateBrowsing]
  refine ⟨rfl, ?_, ?_, ?_, ?_, ?_, ?_, ?_, ?_, ?_, Iff.rfl⟩
  · rw [hfin, hq]; exact hch
  · rw [hfin, hq]
  · show (applyMsgs (msgs ++ [Msg.key "q"]) (initModel items)).changed = false
    rw [hfin, hq]; exact hch
  · rw [delegated_step mNav s hN1 hN2 hsn]
  · simp [update, hT1, hT2, updateBrowsing, toggleAtCursor, hTc]
  · simp [update, hT1, hT2, updateBrowsing, deleteAtCursor, hTc]
  · simp [update, hA, updateAdding, hAne]
  · simp [update, hE1, hE2, updateEditing, hEne, hEi]
  · simp [update, hU1, hU2, updateBrowsing, doUndo, hUi, hUc]

/-- Witness for C5: a one-item session that only navigates (one down key, one resize)
then quits; plus concrete states for each mutating action. -/
theorem dirty_flag_accuracy_witness :
    (initModel [⟨"A", false⟩]).changed = false
    ∧ (applyMsgs ([Msg.key "down", Msg.other] ++ [Msg.key "q"])
        (initModel [⟨"A", false⟩])).changed = false
    ∧ (applyMsgs ([Msg.key "down", Msg.other] ++ [Msg.key "q"])
        (initModel [⟨"A", false⟩])).quitting = true
    ∧ sessionSaves (applyMsgs ([Msg.key "down", Msg.other] ++ [Msg.key "q"])
        (initModel [⟨"A", false⟩])) = false
    ∧ (update (initModel []) (Msg.key "x")).changed = (initModel []).changed
    ∧ (update (initModel [⟨"A", false⟩]) (Msg.key " ")).changed = true
    ∧ (update (initModel [⟨"A", false⟩]) (Msg.key "d")).changed = true
    ∧ (update demoAddingText (Msg.key "enter")).changed = true
    ∧ (update demoEditingB2 (Msg.key "enter")).changed = true
    ∧ (update demoUndoReady (Msg.key "u")).changed = true
    ∧ (sessionSaves (initModel []) = true ↔ (initModel []).changed = true) :=
  dirty_flag_accuracy [⟨"A", false⟩] [Msg.key "down", Msg.other] "x"
    (initModel []) (initModel [⟨"A", false⟩]) demoAddingText demoEditingB2 demoUndoReady
    ⟨"A", false⟩
    (by intro t ht; simp at ht; subst ht; decide)
    (by decide) (by decide) (by decide) (by decide) (by decide) (by decide)
    (by decide) (by decide) (by decide) (by decide) (by decide) (by decide)
    (by decide) (by decide) (by decide) (by decide)

/-- One Selection List action preserves the cursor bounds invariant. -/
theorem applyNav_preserves_inv (s : SelState) (a : NavAction)
    (h : cursorInv s) : cursorInv (applyNav s a) := by
  cases a with
  | moveUp =>
    simp only [cursorInv, applyNav, visible] at *
    omega
  | moveDown =>
    simp only [cursorInv, applyNav, visible] at *
    split_ifs with hlt
    · simp only at *
      omega
    · exact h
  | delete =>
    simp only [cursorInv, applyNav, visible] at *
    split_ifs with h0 hv
    · exact h
    · dsimp only
      omega
    · dsimp only
      omega
  | setFilter f =>
    simp only [cursorInv, applyNav, visible] at *
    omega

/-- A run of Selection List actions preserves the cursor bounds invariant. -/
theorem runNav_preserves_inv (acts : List NavAction) (s : SelState)
    (h : cursorInv s) : cursorInv (runNav acts s) := by
  induction acts generalizing s with
  | nil => exact h
  | cons a rest ih =>
    simp only [runNav, List.foldl_cons]
    exact ih (applyNav s a) (applyNav_preserves_inv s a h)

/-- C8: for every sequence of navigation, delete and filter actions applied from any
initial item list, the Selection List cursor satisfies
`0 ≤ cursor < max 1 visibleCount` (the lower bound holds because the cursor is a
natural number). -/
theorem nav_cursor_bounds (acts : List NavAction) (items : List Item) :
    cursorInv (runNav acts (initSel items)) := by
  apply runNav_preserves_inv
  simp only [cursorInv, initSel]
  omega

/-- C9: `Load` yields the empty item sequence (and no error) when the backing file is
missing; it yields an error carrying no items when the file exists but is unreadable,
and when its contents fail to parse as JSON. -/
theorem load_missing_and_failure_contract (parse : String → Option (List Item))
    (s : String) (hbad : parse s = none) :
    Load parse FileState.missing = Except.ok []
    ∧ Load parse FileState.unreadable = Except.error "read file"
    ∧ Load parse (FileState.content s) = Except.error "json unmarshal" := by
  refine ⟨rfl, rfl, ?_⟩
  simp [Load, hbad]

/-- Witness for C9: a parse function that rejects everything, applied to malformed
contents. -/
theorem load_missing_and_failure_contract_witness :
    Load (fun _ => none) FileState.missing = Except.ok []
    ∧ Load (fun _ => none) FileState.unreadable = Except.error "read file"
    ∧ Load (fun _ => none) (FileState.content "not json") = Except.error "json unmarshal" :=
  load_missing_and_failure_contract (fun _ => none) "not json" rfl

end Tada
